import Mathlib

/-!
Verification development for the AgeOfTrashcan self-play RL trainer
(`src/ml/selfplay/`).  The Python sources are shallowly embedded over `ℚ`:
floating-point scalars become rationals, numpy/torch arrays become lists
(per lane, since all array operations in the embedded code are elementwise
across lanes), and the pseudo-random generator becomes an abstract stream
of draws determined by the seed.  Where float32-specific behaviour matters
(the masked-softmax underflow in the action sampler) it is modelled
explicitly and documented at the definition.
-/

namespace SelfPlay

/-! ## Generalized advantage estimation (`ppo.py`, `compute_gae`, lines 29-47)

The Python loop runs `for step in reversed(range(horizon))` carrying
`last_gae`; here it is rendered as structural recursion from the front of
the time-indexed lists: the advantage at step `t` is
`delta t + gamma * lam * (1 - done t) * lastGae`, where `lastGae` is the
advantage already computed for step `t+1` (the initial `0` past the end of
the horizon) and the next value is `values[t+1]`, or the bootstrap
`nextValue` at the final step (`value_next = next_value if step ==
horizon - 1 else values[step + 1]`).  The three lists have equal length in
the trainer (numpy arrays of shape `(horizon, num_envs)`, one lane shown). -/
def gaeAdvantages (gamma lam nextValue : ℚ) : List ℚ → List ℚ → List ℚ → List ℚ
  | r :: rs, v :: vs, d :: ds =>
    let rest := gaeAdvantages gamma lam nextValue rs vs ds
    let valueNext := vs.headD nextValue
    let nonTerminal := 1 - d
    let delta := r + gamma * valueNext * nonTerminal - v
    (delta + gamma * lam * nonTerminal * rest.headD 0) :: rest
  | _, _, _ => []

/-- Full `compute_gae` for one lane: the advantage recursion above followed by
`returns = advantages + values` (elementwise numpy addition). -/
def computeGae (rewards values dones : List ℚ) (nextValue gamma lam : ℚ) :
    List ℚ × List ℚ :=
  let advantages := gaeAdvantages gamma lam nextValue rewards values dones
  (advantages, List.zipWith (· + ·) advantages values)

/-! ## Clipped PPO surrogate (`ppo.py`, `PPOUpdater.update`, lines 118-122) -/

/-- Semantics of `torch.clamp(x, lo, hi)` (also `np.clip`): clamp `x` into
`[lo, hi]`. -/
def clampQ (x lo hi : ℚ) : ℚ := min (max x lo) hi

/-- Mean of a list of scalars (`torch.mean` over a mini-batch tensor). -/
def listMean (xs : List ℚ) : ℚ := xs.sum / xs.length

/-- Unclipped surrogate product `ratio * advantages[mb_idx]` (line 120). -/
def ppoUnclipped (ratio adv : ℚ) : ℚ := ratio * adv

/-- Clipped surrogate product
`torch.clamp(ratio, 1 - clip_epsilon, 1 + clip_epsilon) * advantages[mb_idx]`
(line 121). -/
def ppoClipped (eps ratio adv : ℚ) : ℚ := clampQ ratio (1 - eps) (1 + eps) * adv

/-- Policy loss `-torch.mean(torch.min(unclipped, clipped))` (line 122) over a
mini-batch given elementwise ratios and normalized advantages. -/
def ppoPolicyLoss (eps : ℚ) (ratios advs : List ℚ) : ℚ :=
  -listMean (List.zipWith (fun r a => min (ppoUnclipped r a) (ppoClipped eps r a)) ratios advs)

/-! ## Entropy annealing (`trainer.py`, `_anneal_entropy`, lines 264-267) -/

/-- One call of `_anneal_entropy`: with
`progress = min(1.0, global_step / max(1, entropy_anneal_steps))`, the
coefficient is overwritten with
`entropy_coef * (1.0 - progress) + entropy_coef_min * progress`.
Note that the interpolation starts from the field's current value
`ppo.entropy_coef`, which this function itself overwrites on every call. -/
def annealEntropy (entropyCoef entropyCoefMin : ℚ) (entropyAnnealSteps globalStep : ℕ) : ℚ :=
  let progress := min 1 ((globalStep : ℚ) / ((max 1 entropyAnnealSteps : ℕ) : ℚ))
  entropyCoef * (1 - progress) + entropyCoefMin * progress

/-- The entropy coefficient after the trainer has called `_anneal_entropy`
once per iteration, at the listed values of `global_step`, starting from the
configured coefficient `c0` (`train`, line 52 calls it every iteration). -/
def annealSequence (c0 cmin : ℚ) (annealSteps : ℕ) (steps : List ℕ) : ℚ :=
  steps.foldl (fun c g => annealEntropy c cmin annealSteps g) c0

/-! ## League pool (`league.py`) -/

/-- Entry of the league pool (`LeagueEntry` dataclass); dataclass equality
compares all fields. -/
structure LeagueEntry where
  checkpointPath : String
  steps : ℤ
  elo : ℚ
  winrate : ℚ
deriving DecidableEq

/-- Strict comparison of the Python sort keys
`(item.elo, item.winrate_vs_smart, item.steps)` (tuple comparison is
lexicographic). -/
def leagueKeyLt (a b : LeagueEntry) : Bool :=
  decide (a.elo < b.elo) ||
    (decide (a.elo = b.elo) &&
      (decide (a.winrate < b.winrate) ||
        (decide (a.winrate = b.winrate) && decide (a.steps < b.steps))))

/-- Insert into a descending-sorted list, after any entry with an equal or
greater key, preserving the relative order of equal keys. -/
def leagueInsert (x : LeagueEntry) : List LeagueEntry → List LeagueEntry
  | [] => [x]
  | y :: ys => if leagueKeyLt x y then y :: leagueInsert x ys else x :: y :: ys

/-- Model of `self.entries.sort(key=lambda item: (item.elo,
item.winrate_vs_smart, item.steps), reverse=True)`: Python `list.sort` is a
stable sort, rendered here as stable insertion sort descending by the same
key. -/
def leagueSortDesc : List LeagueEntry → List LeagueEntry
  | [] => []
  | x :: xs => leagueInsert x (leagueSortDesc xs)

/-- Python `min` over a nonempty list of floats (the empty case is never
reached: the caller guards with `if top3_baseline`). -/
def listMin : List ℚ → ℚ
  | [] => 0
  | [x] => x
  | x :: y :: rest => min x (listMin (y :: rest))

/-- `LeaguePool.promote_if_qualified` (`league.py`, lines 36-45) acting on the
pool's `keep_top_n` and `entries`; returns the boolean result together with
the entry list after the call.  The final truncation is the literal
`self.entries[: max(self.keep_top_n, len(self.entries))]` from line 44. -/
def promoteIfQualified (keepTopN : ℕ) (entries : List LeagueEntry)
    (candidate : LeagueEntry) (top3Baseline : List ℚ) : Bool × List LeagueEntry :=
  if candidate.winrate < 11/20 then (false, entries)
  else if top3Baseline ≠ [] ∧ candidate.winrate < listMin top3Baseline then (false, entries)
  else
    let entries1 := if candidate ∈ entries then entries else entries ++ [candidate]
    let sorted := leagueSortDesc entries1
    (true, sorted.take (max keepTopN sorted.length))

/-! ## Masked action sampling (`model.py`, `masked_logits` line 126-128 and
`sample_action` lines 130-175)

Each of the five heads is handled by the same procedure: replace the logits
at masked-out positions with `torch.finfo(dtype).min`, build a categorical
distribution, and either sample from it (stochastic mode) or take the
arg-max (deterministic mode).  The default dtype is float32.  The softmax
inside `torch.distributions.Categorical` subtracts the row maximum and
exponentiates in float32, where `exp` underflows to exactly `0` for
arguments below `log` of the smallest subnormal (about `-103.97`); sampling
can only return an index of positive probability, so the set of sampleable
indices is the set of positions whose shifted logit does not underflow.
The threshold is modelled as `-104`; its exact value is irrelevant as long
as it separates the float32 minimum from ordinary logit magnitudes. -/

/-- Value of `torch.finfo(torch.float32).min`, the most negative finite
float32, `-(2 - 2^-23) * 2^127`. -/
def fmin32 : ℚ := -(2 ^ 128 - 2 ^ 104)

/-- Replacement of masked-out logits,
`torch.where(mask > 0, logits, torch.full_like(logits, finfo.min))`. -/
def maskedLogits (logits mask : List ℚ) : List ℚ :=
  List.zipWith (fun m l => if 0 < m then l else fmin32) mask logits

/-- Maximum of a nonempty list (`0` for the empty list, which no caller
reaches). -/
def listMax : List ℚ → ℚ
  | [] => 0
  | [x] => x
  | x :: y :: rest => max x (listMax (y :: rest))

/-- Semantics of `torch.argmax(masked, dim=-1)` for one row: the first index
attaining the maximum (the tie-breaking torch guarantees). -/
def argmaxIdx : List ℚ → ℕ
  | [] => 0
  | [_] => 0
  | x :: y :: rest => if x < listMax (y :: rest) then argmaxIdx (y :: rest) + 1 else 0

/-- Whether float32 `exp` underflows to exactly zero at `x` (see the section
comment; `-104` stands for the true cutoff of about `-103.97`). -/
def expUnderflows (x : ℚ) : Bool := decide (x < -104)

/-- Indices that `Categorical(logits=masked).sample()` can return: positions
whose float32 softmax probability is positive, i.e. whose logit shifted by
the row maximum does not underflow. -/
def sampleSupport (l : List ℚ) : List ℕ :=
  (List.range l.length).filter (fun i => ! expUnderflows (l.getD i 0 - listMax l))

/-! ## Trainer iteration tail (`trainer.py`, `SelfPlayTrainer.train` lines
49-82, `_rollback_checkpoint` lines 255-262, `_save_checkpoint` lines
239-253)

The rollout collection and the gradient update are external to this claim:
their net effect on the model parameters and the optimizer state is taken
as an input (`updParams`, `updOpt`, over abstract state types), together
with the metrics dictionary the update returned.  Side effects (the metrics
log line, the entropy alert, the checkpoint save, the evaluation/league
update, the rollback notice and the missing-checkpoint warning) are
recorded as an event list in program order.  A saved checkpoint is modelled
by the `(model, optimizer)` snapshot it stores; `_save_checkpoint` persists
the current state and `train` remembers it as `last_good_checkpoint`, which
`_rollback_checkpoint` reloads. -/

/-- A metric value as returned by `PPOUpdater.update`: a finite float, NaN,
or a signed infinity. -/
inductive MetricVal where
  | fin (q : ℚ)
  | nan
  | posInf
  | negInf
deriving DecidableEq

/-- Condition `np.isnan(v) or np.isinf(v)` from line 55. -/
def isNanOrInf : MetricVal → Bool
  | .fin _ => false
  | _ => true

/-- The metrics dictionary built in `PPOUpdater.update` (keys in insertion
order: `policy_loss`, `value_loss`, `entropy`, `kl`, `clips`, `updates`). -/
structure Metrics where
  policyLoss : MetricVal
  valueLoss : MetricVal
  entropy : MetricVal
  kl : MetricVal
  clips : MetricVal
  updates : MetricVal
deriving DecidableEq

/-- Values of the metrics dictionary, in insertion order
(`metrics.values()`). -/
def Metrics.valueList (m : Metrics) : List MetricVal :=
  [m.policyLoss, m.valueLoss, m.entropy, m.kl, m.clips, m.updates]

/-- Python `v < c` for a metric value against a float constant: comparisons
with NaN are false, `-inf < c` is true, `+inf < c` is false. -/
def metricLtQ : MetricVal → ℚ → Bool
  | .fin q, c => decide (q < c)
  | .nan, _ => false
  | .posInf, _ => false
  | .negInf, _ => true

/-- The runtime configuration fields the training loop reads
(`config.py`, `RuntimeConfig`). -/
structure RuntimeCfgLoop where
  rolloutHorizon : ℕ
  numEnvs : ℕ
  logInterval : ℕ
  checkpointEvery : ℕ
  evalEvery : ℕ
  entropyFloorAlert : ℚ

/-- Mutable trainer state over abstract parameter and optimizer state types
`Θ` and `Ω`. -/
structure TrainerState (Θ Ω : Type) where
  modelParams : Θ
  optState : Ω
  globalStep : ℕ
  lastGoodCheckpoint : Option (Θ × Ω)

/-- Observable side effects of one loop iteration, in program order. -/
inductive TrainerEvent where
  | metricsLogged
  | entropyAlert
  | checkpointSaved
  | evaluated
  | rollbackNotice
  | noCheckpointWarning
deriving DecidableEq

/-- One iteration of the `while` body of `train` after the rollout and the
PPO update (whose effect is the input `updParams`/`updOpt`), following the
source order: `_anneal_entropy` (modelled separately by `annealEntropy`) and
the `global_step` increment happen before the NaN/Inf check, so even a
rolled-back iteration advances `global_step`; on a NaN/Inf metric the state
is restored from `last_good_checkpoint` (or a warning is emitted when none
exists) and the `continue` skips the log/checkpoint/eval block. -/
def trainIterationTail {Θ Ω : Type} (rt : RuntimeCfgLoop) (s : TrainerState Θ Ω)
    (updParams : Θ) (updOpt : Ω) (metrics : Metrics) :
    TrainerState Θ Ω × List TrainerEvent :=
  let stepped := s.globalStep + rt.rolloutHorizon * rt.numEnvs
  let s1 : TrainerState Θ Ω :=
    { modelParams := updParams
      optState := updOpt
      globalStep := stepped
      lastGoodCheckpoint := s.lastGoodCheckpoint }
  if (Metrics.valueList metrics).any isNanOrInf then
    match s.lastGoodCheckpoint with
    | none => (s1, [TrainerEvent.noCheckpointWarning])
    | some cp => ({ s1 with modelParams := cp.1, optState := cp.2 }, [TrainerEvent.rollbackNotice])
  else
    let logEvents :=
      if stepped % rt.logInterval == 0 then
        if metricLtQ metrics.entropy rt.entropyFloorAlert then
          [TrainerEvent.metricsLogged, TrainerEvent.entropyAlert]
        else [TrainerEvent.metricsLogged]
      else []
    let saveStep :=
      if stepped % rt.checkpointEvery == 0 then
        ({ s1 with lastGoodCheckpoint := some (s1.modelParams, s1.optState) },
          [TrainerEvent.checkpointSaved])
      else (s1, [])
    let evalEvents := if stepped % rt.evalEvery == 0 then [TrainerEvent.evaluated] else []
    (saveStep.1, logEvents ++ saveStep.2 ++ evalEvents)

/-! ## Mock environment (`env.py`)

The only source of randomness is `self.rng = np.random.default_rng(seed)`;
one `rng.uniform(0.0, 0.6)` call is made per step.  The generator is a
deterministic function of its seed and of how many draws have been
consumed, so it is modelled as a seed plus a draw counter, with the actual
draw values supplied by an abstract stream `rngStream : ℤ → ℕ → ℚ` standing
for PCG64; `uniform(lo, hi)` maps the raw unit draw `u` to
`lo + (hi - lo) * u`.  Floats become rationals (`0.2 = 1/5`, etc.). -/

/-- The `ACTIONS` list from `env.py`, lines 12-21. -/
def ACTIONS : List String :=
  ["WAIT", "RECRUIT_UNIT", "AGE_UP", "UPGRADE_MANA", "UPGRADE_TURRET_SLOTS",
    "BUY_TURRET_ENGINE", "SELL_TURRET_ENGINE", "REPAIR_BASE"]

/-- The model-configuration fields the environment reads
(`config.py`, `ModelConfig`). -/
structure ModelCfg where
  staticDim : ℕ
  sequenceLen : ℕ
  tokenDim : ℕ
  unitDim : ℕ
  turretDim : ℕ
  slotDim : ℕ
deriving DecidableEq

/-- The `MockEnvState` dataclass with its default field values. -/
structure MockEnvState where
  tick : ℕ := 0
  gameTime : ℚ := 0
  ownBaseHp : ℚ := 1000
  oppBaseHp : ℚ := 1000
  ownUnits : ℚ := 0
  oppUnits : ℚ := 0
  ownGold : ℚ := 150
  ownMana : ℚ := 0
  ownAge : ℕ := 1
  ownManaLevel : ℕ := 0
deriving DecidableEq

/-- The `Action` dataclass (`schemas.py`), string tags and optional
sub-fields; only `action_type` is read by the mock environment. -/
structure Action where
  actionType : String
  unitId : Option String := none
  turretId : Option String := none
  slotIndex : Option ℤ := none
  confidence : ℚ := 0
deriving DecidableEq

/-- The `RewardComponents` dataclass (`schemas.py`). -/
structure RewardComponents where
  enemyUnitKillValue : ℚ := 0
  ownUnitLossValue : ℚ := 0
  enemyBaseDamage : ℚ := 0
  ownBaseDamage : ℚ := 0
  safeAgeUpBonus : ℚ := 0
  laneControlDelta : ℚ := 0
  illegalActionPenalty : ℚ := 0
  terminalOutcome : ℚ := 0
deriving DecidableEq

/-- The `info` dictionary returned by `step` (lines 132-137). -/
structure StepInfo where
  ownBaseHp : ℚ
  oppBaseHp : ℚ
  ownUnits : ℚ
  oppUnits : ℚ
deriving DecidableEq

/-- The `Observation` dataclass (`schemas.py`) as built by the mock
environment; the integer 0/1 masks are carried as rationals. -/
structure Observation where
  tick : ℕ
  gameTime : ℚ
  staticState : List ℚ
  eventSequence : List (List ℚ)
  actionTypeMask : List ℚ
  unitMask : List ℚ
  turretMask : List ℚ
  buySlotMask : List ℚ
  sellSlotMask : List ℚ
deriving DecidableEq

/-- All state of a `MockSelfPlayEnv` instance: the immutable constructor
arguments plus every field mutated by `reset`/`step` (the rng, the game
state, and the two last-damage scalars). -/
structure MockEnv where
  cfg : ModelCfg
  maxTicks : ℕ
  rngSeed : ℤ
  rngCount : ℕ
  state : MockEnvState
  lastDamageToOpp : ℚ
  lastDamageToSelf : ℚ
deriving DecidableEq

/-- `MockSelfPlayEnv.__init__` (lines 49-55): fresh state, rng seeded
with 0, zero last damage. -/
def mkMockEnv (cfg : ModelCfg) (maxTicks : ℕ) : MockEnv :=
  { cfg := cfg, maxTicks := maxTicks, rngSeed := 0, rngCount := 0,
    state := {}, lastDamageToOpp := 0, lastDamageToSelf := 0 }

/-- `MockSelfPlayEnv._build_observation` (lines 154-192).  `np.clip` is
`clampQ`; `sequence[-1]` writes the final row, modelled by `List.set` at
index `sequence_len - 1` (numpy would raise on an empty sequence, where the
embedding leaves the all-zero sequence unchanged);
`ACTIONS.index("WAIT") + 1` over `len(ACTIONS) + 1` is computed from the
embedded `ACTIONS` list. -/
def buildObservation (cfg : ModelCfg) (st : MockEnvState) (ldOpp ldSelf : ℚ) :
    Observation :=
  let static :=
    ((((((((((((List.replicate cfg.staticDim (0 : ℚ)).set
      0 (clampQ (st.gameTime / 600) 0 1)).set
      1 (clampQ ((st.tick : ℚ) / 36000) 0 1)).set
      2 (clampQ (st.ownGold / 10000) 0 1)).set
      3 (clampQ (st.ownMana / 5000) 0 1)).set
      4 (clampQ ((st.ownAge : ℚ) / 6) 0 1)).set
      5 (clampQ ((st.ownManaLevel : ℚ) / 40) 0 1)).set
      6 (clampQ (st.ownUnits / 40) 0 1)).set
      7 (clampQ (st.oppUnits / 40) 0 1)).set
      8 (clampQ (st.ownBaseHp / 1000) 0 1)).set
      9 (clampQ (st.oppBaseHp / 1000) 0 1)).set
      10 (clampQ ((st.ownUnits - st.oppUnits) / 50) (-1) 1)).set
      11 (clampQ ((st.ownBaseHp - st.oppBaseHp) / 1000) (-1) 1)
  let lastRow :=
    (((((List.replicate cfg.tokenDim (0 : ℚ)).set
      0 (2 / 3)).set
      1 ((((ACTIONS.indexOf "WAIT" : ℕ) : ℚ) + 1) / (((ACTIONS.length : ℕ) : ℚ) + 1))).set
      5 (1 / 4)).set
      6 (clampQ ((ldOpp - ldSelf) / 20) (-1) 1)).set
      7 (clampQ (ldOpp / 200) 0 1)
  let sequence :=
    (List.replicate cfg.sequenceLen (List.replicate cfg.tokenDim (0 : ℚ))).set
      (cfg.sequenceLen - 1) lastRow
  { tick := st.tick
    gameTime := st.gameTime
    staticState := static
    eventSequence := sequence
    actionTypeMask :=
      [1, 1, if st.ownAge < 6 then 1 else 0, 1, 1, 1, 0,
        if (120 : ℚ) ≤ st.ownMana then 1 else 0]
    unitMask := List.replicate cfg.unitDim 1
    turretMask := List.replicate cfg.turretDim 1
    buySlotMask := List.replicate cfg.slotDim 1
    sellSlotMask := List.replicate cfg.slotDim 0 }

/-- `MockSelfPlayEnv.reset` (lines 57-62): reseed the rng, reinstall the
default state, zero both last-damage fields, and return the fresh
observation. -/
def resetEnv (e : MockEnv) (seed : ℤ) : MockEnv × Observation :=
  let e2 : MockEnv :=
    { cfg := e.cfg, maxTicks := e.maxTicks, rngSeed := seed, rngCount := 0,
      state := {}, lastDamageToOpp := 0, lastDamageToSelf := 0 }
  (e2, buildObservation e2.cfg e2.state e2.lastDamageToOpp e2.lastDamageToSelf)

set_option maxHeartbeats 1000000 in
/-- `MockSelfPlayEnv.step` (lines 64-138), including
`_simulate_opponent_policy` (lines 140-143, one `rng.uniform(0.0, 0.6)`
draw) and `_simulate_battle` (lines 145-152).  Returns the updated
environment and the `(observation, reward, done, info, reward_components)`
tuple. -/
def stepEnv (rngStream : ℤ → ℕ → ℚ) (e : MockEnv) (action : Action) :
    MockEnv × Observation × ℚ × Bool × StepInfo × RewardComponents :=
  let prev := e.state
  let applied : MockEnvState × ℚ :=
    if action.actionType = "RECRUIT_UNIT" then
      if (25 : ℚ) ≤ prev.ownGold then
        ({ prev with ownGold := prev.ownGold - 25, ownUnits := prev.ownUnits + 5/4 }, (0 : ℚ))
      else (prev, -(1/5))
    else if action.actionType = "AGE_UP" then
      let cost : ℚ := 350 + (prev.ownAge : ℚ) * 180
      if prev.ownAge < 6 ∧ cost ≤ prev.ownGold then
        ({ prev with ownGold := prev.ownGold - cost, ownAge := prev.ownAge + 1 }, 0)
      else (prev, -(1/5))
    else if action.actionType = "UPGRADE_MANA" then
      let cost : ℚ := 120 + (prev.ownManaLevel : ℚ) * 80
      if cost ≤ prev.ownGold then
        ({ prev with ownGold := prev.ownGold - cost, ownManaLevel := prev.ownManaLevel + 1 }, 0)
      else (prev, -(1/5))
    else if action.actionType = "REPAIR_BASE" then
      if (120 : ℚ) ≤ prev.ownMana then
        ({ prev with
            ownMana := prev.ownMana - 120
            ownBaseHp := min 1000 (prev.ownBaseHp + 65) }, 0)
      else (prev, -(1/5))
    else (prev, 0)
  let st1 : MockEnvState := applied.1
  let illegalPenalty : ℚ := applied.2
  let u : ℚ := rngStream e.rngSeed e.rngCount
  let st2a : MockEnvState := { st1 with oppUnits := st1.oppUnits + (7/10 + (0 + (3/5 - 0) * u)) }
  let st2 : MockEnvState := if st2a.tick % 240 == 0 then { st2a with oppUnits := st2a.oppUnits + 3 } else st2a
  let clash : ℚ := min st2.ownUnits st2.oppUnits
  let ownUnitsB : ℚ := max 0 (st2.ownUnits - clash * (11/20))
  let oppUnitsB : ℚ := max 0 (st2.oppUnits - clash * (3/5))
  let ldOpp : ℚ := max 0 (ownUnitsB * (7/5) - oppUnitsB * (2/5))
  let ldSelf : ℚ := max 0 (oppUnitsB * (6/5) - ownUnitsB * (7/20))
  let st3 : MockEnvState := { st2 with
    ownUnits := ownUnitsB, oppUnits := oppUnitsB,
    oppBaseHp := max 0 (st2.oppBaseHp - ldOpp),
    ownBaseHp := max 0 (st2.ownBaseHp - ldSelf) }
  let tick1 : ℕ := st3.tick + 1
  let st5 : MockEnvState := { st3 with
    tick := tick1,
    gameTime := (tick1 : ℚ) * (1/2),
    ownGold := st3.ownGold + 8 + (st3.ownAge : ℚ) * (7/5),
    ownMana := st3.ownMana + (st3.ownManaLevel : ℚ) * (4/5) }
  let rcBase : RewardComponents :=
    { enemyUnitKillValue := max 0 (prev.oppUnits - st5.oppUnits) * (3/25)
      ownUnitLossValue := -(max 0 (prev.ownUnits - st5.ownUnits) * (1/10))
      enemyBaseDamage := max 0 (prev.oppBaseHp - st5.oppBaseHp) * (1/50)
      ownBaseDamage := -(max 0 (prev.ownBaseHp - st5.ownBaseHp) * (1/50))
      safeAgeUpBonus := if prev.ownAge < st5.ownAge ∧ 550 < st5.ownBaseHp then 1/5 else 0
      laneControlDelta := (st5.ownUnits - st5.oppUnits) * (1/100)
      illegalActionPenalty := illegalPenalty
      terminalOutcome := 0 }
  let reward0 : ℚ :=
    rcBase.enemyUnitKillValue + rcBase.ownUnitLossValue + rcBase.enemyBaseDamage +
      rcBase.ownBaseDamage + rcBase.safeAgeUpBonus + rcBase.laneControlDelta +
      rcBase.illegalActionPenalty
  let done : Bool :=
    decide (st5.ownBaseHp ≤ 0) || decide (st5.oppBaseHp ≤ 0) || decide (e.maxTicks ≤ st5.tick)
  let terminal : ℚ :=
    if done then
      if st5.oppBaseHp ≤ 0 ∧ 0 < st5.ownBaseHp then 2
      else if st5.ownBaseHp ≤ 0 ∧ 0 < st5.oppBaseHp then -2
      else 0
    else 0
  let rc : RewardComponents := { rcBase with terminalOutcome := terminal }
  let reward : ℚ := if done then reward0 + terminal else reward0
  let info : StepInfo :=
    { ownBaseHp := st5.ownBaseHp, oppBaseHp := st5.oppBaseHp,
      ownUnits := st5.ownUnits, oppUnits := st5.oppUnits }
  let e2 : MockEnv :=
    { e with
      state := st5
      rngCount := e.rngCount + 1
      lastDamageToOpp := ldOpp
      lastDamageToSelf := ldSelf }
  (e2, buildObservation e2.cfg st5 ldOpp ldSelf, reward, done, info, rc)

/-- Stepping an environment through a whole action sequence, recording every
`(observation, reward, done, info, reward_components)` tuple returned. -/
def runEpisode (rngStream : ℤ → ℕ → ℚ) :
    MockEnv → List Action → List (Observation × ℚ × Bool × StepInfo × RewardComponents)
  | _, [] => []
  | e, a :: rest =>
    let out := stepEnv rngStream e a
    out.2 :: runEpisode rngStream out.1 rest

/-! ## Helper lemmas -/

/-- Indexing an elementwise `zipWith` inside its bounds. -/
theorem getD_zipWith (f : ℚ → ℚ → ℚ) (xs ys : List ℚ) (i : ℕ)
    (h1 : i < xs.length) (h2 : i < ys.length) :
    (List.zipWith f xs ys).getD i 0 = f (xs.getD i 0) (ys.getD i 0) := by
  induction xs generalizing ys i with
  | nil => simp at h1
  | cons a as ih =>
    cases ys with
    | nil => simp at h2
    | cons b bs =>
      cases i with
      | zero => simp
      | succ n =>
        simp only [List.zipWith_cons_cons, List.getD_cons_succ]
        exact ih bs n (by simpa using h1) (by simpa using h2)

/-- Length of the advantage list produced by the GAE recursion. -/
theorem gaeAdvantages_length (gamma lam nv : ℚ) (rs vs ds : List ℚ) :
    (gaeAdvantages gamma lam nv rs vs ds).length =
      min rs.length (min vs.length ds.length) := by
  induction rs generalizing vs ds with
  | nil => simp [gaeAdvantages]
  | cons r rs ih =>
    cases vs with
    | nil => simp [gaeAdvantages]
    | cons v vs =>
      cases ds with
      | nil => simp [gaeAdvantages]
      | cons d ds =>
        simp only [gaeAdvantages, List.length_cons, ih]
        omega

/-- Two lists that agree on a positive-length prefix have equal heads. -/
theorem headD_eq_of_take_succ {α : Type} {xs ys : List α} {n : ℕ} {d e : α}
    (h : xs.take (n + 1) = ys.take (n + 1)) (hx : xs ≠ []) (hy : ys ≠ []) :
    xs.headD d = ys.headD e := by
  cases xs with
  | nil => exact absurd rfl hx
  | cons a as =>
    cases ys with
    | nil => exact absurd rfl hy
    | cons b bs =>
      simp only [List.take_succ_cons, List.cons.injEq] at h
      simp [h.1]

/-- Every member of a list is bounded by `listMax`. -/
theorem le_listMax {x : ℚ} : ∀ {l : List ℚ}, x ∈ l → x ≤ listMax l := by
  intro l
  induction l with
  | nil => intro h; simp at h
  | cons a as ih =>
    intro hmem
    cases as with
    | nil =>
      rw [List.mem_singleton] at hmem
      simp [listMax, hmem]
    | cons b bs =>
      rcases List.mem_cons.mp hmem with h | h
      · subst h; simp [listMax]
      · exact le_trans (ih h) (by simp [listMax])

/-- The arg-max index is inside the list. -/
theorem argmaxIdx_lt : ∀ {l : List ℚ}, l ≠ [] → argmaxIdx l < l.length := by
  intro l
  induction l with
  | nil => intro h; exact absurd rfl h
  | cons a as ih =>
    intro _
    cases as with
    | nil => simp [argmaxIdx]
    | cons b bs =>
      by_cases hlt : a < listMax (b :: bs)
      · have h2 := ih (by simp)
        simp only [List.length_cons] at h2
        simp only [argmaxIdx, if_pos hlt, List.length_cons]
        omega
      · simp [argmaxIdx, if_neg hlt]

/-- The arg-max index attains the maximum value. -/
theorem getD_argmaxIdx : ∀ {l : List ℚ}, l ≠ [] → l.getD (argmaxIdx l) 0 = listMax l := by
  intro l
  induction l with
  | nil => intro h; exact absurd rfl h
  | cons a as ih =>
    intro _
    cases as with
    | nil => simp [argmaxIdx, listMax]
    | cons b bs =>
      by_cases hlt : a < listMax (b :: bs)
      · have h2 := ih (by simp)
        have hmax : listMax (a :: b :: bs) = listMax (b :: bs) := by
          simp [listMax, max_eq_right (le_of_lt hlt)]
        simp only [argmaxIdx, if_pos hlt, List.getD_cons_succ, h2, hmax]
      · simp [argmaxIdx, if_neg hlt, listMax, max_eq_left (not_lt.mp hlt)]

/-- Python `min` of a nonempty list is a strict lower bound exactly when every
element is. -/
theorem lt_listMin_iff {c : ℚ} :
    ∀ {l : List ℚ}, l ≠ [] → ((c < listMin l) ↔ ∀ x ∈ l, c < x) := by
  intro l
  induction l with
  | nil => intro h; exact absurd rfl h
  | cons a as ih =>
    intro _
    cases as with
    | nil => simp [listMin]
    | cons b bs =>
      have h2 := ih (by simp)
      simp only [listMin, lt_min_iff, h2, List.forall_mem_cons]

/-- Inserting into the league order adds one entry. -/
theorem leagueInsert_length (x : LeagueEntry) :
    ∀ l : List LeagueEntry, (leagueInsert x l).length = l.length + 1 := by
  intro l
  induction l with
  | nil => rfl
  | cons y ys ih =>
    by_cases h : leagueKeyLt x y = true
    · simp [leagueInsert, h, ih]
    · simp [leagueInsert, h]

/-- The league sort is a permutation-style reordering: it preserves length. -/
theorem leagueSortDesc_length :
    ∀ l : List LeagueEntry, (leagueSortDesc l).length = l.length := by
  intro l
  induction l with
  | nil => rfl
  | cons x xs ih => simp [leagueSortDesc, leagueInsert_length, ih]

/-! ## Claim theorems -/

/-- C5: for a horizon-1 input with done flag zero, `compute_gae` returns
exactly `advantage = reward + gamma * next_value - value` (for every value
of `gae_lambda`, which therefore has no effect) and
`return = advantage + value`; and for inputs of any horizon with matching
array shapes, the returned returns array equals advantages plus values
elementwise. -/
theorem gae_single_step_and_returns (r v nv gamma lam : ℚ)
    (rewards values dones : List ℚ)
    (hv : values.length = rewards.length) (hd : dones.length = rewards.length) :
    (computeGae [r] [v] [0] nv gamma lam).1 = [r + gamma * nv - v] ∧
    (computeGae [r] [v] [0] nv gamma lam).2 = [r + gamma * nv - v + v] ∧
    ∀ i, i < rewards.length →
      (computeGae rewards values dones nv gamma lam).2.getD i 0 =
        (computeGae rewards values dones nv gamma lam).1.getD i 0 + values.getD i 0 := by
  refine ⟨?_, ?_, ?_⟩
  · simp only [computeGae, gaeAdvantages, List.headD, List.cons.injEq, and_true]
    ring
  · simp only [computeGae, gaeAdvantages, List.headD, List.zipWith_cons_cons,
      List.zipWith_nil_right, List.cons.injEq, and_true]
    ring
  · intro i hi
    have hlen : (gaeAdvantages gamma lam nv rewards values dones).length = rewards.length := by
      rw [gaeAdvantages_length]; omega
    simp only [computeGae]
    exact getD_zipWith _ _ _ i (by omega) (by omega)

/-- C5 witness: the theorem instantiated at a concrete input with its
hypotheses discharged. -/
theorem gae_single_step_and_returns_witness :
    (([4, 9] : List ℚ).length = ([1, 2] : List ℚ).length ∧
      ([0, 1] : List ℚ).length = ([1, 2] : List ℚ).length) ∧
    ((computeGae [3] [5] [0] 7 (1/2) (3/4)).1 = [3 + 1/2 * 7 - 5] ∧
      (computeGae [3] [5] [0] 7 (1/2) (3/4)).2 = [3 + 1/2 * 7 - 5 + 5] ∧
      ∀ i, i < ([1, 2] : List ℚ).length →
        (computeGae [1, 2] [4, 9] [0, 1] 7 (1/2) (3/4)).2.getD i 0 =
          (computeGae [1, 2] [4, 9] [0, 1] 7 (1/2) (3/4)).1.getD i 0 +
            ([4, 9] : List ℚ).getD i 0) :=
  ⟨⟨rfl, rfl⟩, gae_single_step_and_returns 3 5 7 (1/2) (3/4) [1, 2] [4, 9] [0, 1] rfl rfl⟩

/-- C2: if the done flag at step `t` is `1`, the advantages `compute_gae`
assigns to steps `0..t` of the lane are unchanged when the rewards and
values at steps after `t` — and the bootstrap value — are replaced by
anything else: a reward spike after a done flag never leaks backward across
the episode boundary. -/
theorem gae_done_no_leak (gamma lam nv nv2 : ℚ) :
    ∀ (t : ℕ) (rewards values rewards2 values2 dones : List ℚ),
      rewards.length = dones.length → values.length = dones.length →
      rewards2.length = dones.length → values2.length = dones.length →
      t < dones.length → dones.getD t 0 = 1 →
      rewards.take (t + 1) = rewards2.take (t + 1) →
      values.take (t + 1) = values2.take (t + 1) →
      (computeGae rewards values dones nv gamma lam).1.take (t + 1) =
        (computeGae rewards2 values2 dones nv2 gamma lam).1.take (t + 1) := by
  intro t
  induction t with
  | zero =>
    intro rewards values rewards2 values2 dones h1 h2 h3 h4 ht hd hr hv
    cases dones with
    | nil => simp at ht
    | cons d ds =>
    cases rewards with
    | nil => simp at h1
    | cons r rs =>
    cases values with
    | nil => simp at h2
    | cons v vs =>
    cases rewards2 with
    | nil => simp at h3
    | cons r2 rs2 =>
    cases values2 with
    | nil => simp at h4
    | cons v2 vs2 =>
    simp only [List.getD_cons_zero] at hd
    simp only [zero_add, List.take_succ_cons, List.take_zero, List.cons.injEq, and_true] at hr hv
    subst hd hr hv
    simp only [computeGae, gaeAdvantages, zero_add, List.take_succ_cons, List.take_zero,
      List.cons.injEq, and_true]
    ring
  | succ s ih =>
    intro rewards values rewards2 values2 dones h1 h2 h3 h4 ht hd hr hv
    cases dones with
    | nil => simp at ht
    | cons d ds =>
    cases rewards with
    | nil => simp at h1
    | cons r rs =>
    cases values with
    | nil => simp at h2
    | cons v vs =>
    cases rewards2 with
    | nil => simp at h3
    | cons r2 rs2 =>
    cases values2 with
    | nil => simp at h4
    | cons v2 vs2 =>
    simp only [List.length_cons] at h1 h2 h3 h4 ht
    simp only [List.getD_cons_succ] at hd
    simp only [List.take_succ_cons, List.cons.injEq] at hr hv
    have hs : s < ds.length := by omega
    have hrec := ih rs vs rs2 vs2 ds (by omega) (by omega) (by omega) (by omega) hs hd hr.2 hv.2
    simp only [computeGae] at hrec ⊢
    have hvsne : vs ≠ [] := by
      apply List.ne_nil_of_length_pos; omega
    have hvs2ne : vs2 ≠ [] := by
      apply List.ne_nil_of_length_pos; omega
    have hheadv : vs.headD nv = vs2.headD nv2 := headD_eq_of_take_succ hv.2 hvsne hvs2ne
    have hrestne : gaeAdvantages gamma lam nv rs vs ds ≠ [] := by
      apply List.ne_nil_of_length_pos
      rw [gaeAdvantages_length]; omega
    have hrest2ne : gaeAdvantages gamma lam nv2 rs2 vs2 ds ≠ [] := by
      apply List.ne_nil_of_length_pos
      rw [gaeAdvantages_length]; omega
    have hheadg : (gaeAdvantages gamma lam nv rs vs ds).headD 0 =
        (gaeAdvantages gamma lam nv2 rs2 vs2 ds).headD 0 :=
      headD_eq_of_take_succ hrec hrestne hrest2ne
    simp only [gaeAdvantages, List.take_succ_cons, List.cons.injEq]
    exact ⟨by rw [hr.1, hv.1, hheadv, hheadg], hrec⟩

/-- C2 witness: the theorem instantiated at a concrete input (done at step
0, differing later rewards, values and bootstraps) with its hypotheses
discharged. -/
theorem gae_done_no_leak_witness :
    (([1, 5] : List ℚ).length = ([1, 0] : List ℚ).length ∧
      ([2, 3] : List ℚ).length = ([1, 0] : List ℚ).length ∧
      ([1, 100] : List ℚ).length = ([1, 0] : List ℚ).length ∧
      ([2, 50] : List ℚ).length = ([1, 0] : List ℚ).length ∧
      0 < ([1, 0] : List ℚ).length ∧ ([1, 0] : List ℚ).getD 0 0 = 1 ∧
      ([1, 5] : List ℚ).take 1 = ([1, 100] : List ℚ).take 1 ∧
      ([2, 3] : List ℚ).take 1 = ([2, 50] : List ℚ).take 1) ∧
    (computeGae [1, 5] [2, 3] [1, 0] 7 (99/100) (19/20)).1.take 1 =
      (computeGae [1, 100] [2, 50] [1, 0] 9 (99/100) (19/20)).1.take 1 :=
  ⟨⟨rfl, rfl, rfl, rfl, by norm_num, rfl, rfl, rfl⟩,
    gae_done_no_leak (99/100) (19/20) 7 9 0 [1, 5] [2, 3] [1, 100] [2, 50] [1, 0]
      rfl rfl rfl rfl (by norm_num) rfl rfl rfl⟩

/-- C6: the clipped surrogate term is the clamped ratio times the advantage —
at `ratio = 1 + 2 * eps` it equals `(1 + eps) * advantage` — and the policy
loss is the negated mean of the elementwise minimum of the unclipped and
clipped products, which resolves to the smaller product according to the
sign of the advantage. -/
theorem ppo_clip_objective (eps : ℚ) (ratios advs : List ℚ) (heps : 0 < eps) :
    (∀ a : ℚ, ppoClipped eps (1 + 2 * eps) a = (1 + eps) * a) ∧
    (∀ r a : ℚ, 0 ≤ a →
      min (ppoUnclipped r a) (ppoClipped eps r a) =
        min r (clampQ r (1 - eps) (1 + eps)) * a) ∧
    (∀ r a : ℚ, a ≤ 0 →
      min (ppoUnclipped r a) (ppoClipped eps r a) =
        max r (clampQ r (1 - eps) (1 + eps)) * a) ∧
    ppoPolicyLoss eps ratios advs =
      -listMean (List.zipWith
        (fun r a => min (ppoUnclipped r a) (ppoClipped eps r a)) ratios advs) := by
  refine ⟨?_, ?_, ?_, rfl⟩
  · intro a
    unfold ppoClipped clampQ
    rw [max_eq_left (by linarith), min_eq_right (by linarith)]
  · intro r a ha
    unfold ppoUnclipped ppoClipped
    rcases le_total r (clampQ r (1 - eps) (1 + eps)) with h | h
    · rw [min_eq_left (mul_le_mul_of_nonneg_right h ha), min_eq_left h]
    · rw [min_eq_right (mul_le_mul_of_nonneg_right h ha), min_eq_right h]
  · intro r a ha
    unfold ppoUnclipped ppoClipped
    rcases le_total r (clampQ r (1 - eps) (1 + eps)) with h | h
    · rw [max_eq_right h, min_eq_right (mul_le_mul_of_nonpos_right h ha)]
    · rw [max_eq_left h, min_eq_left (mul_le_mul_of_nonpos_right h ha)]

/-- C6 witness: the theorem instantiated at `eps = 1/5` on a concrete
mini-batch. -/
theorem ppo_clip_objective_witness :
    (0 : ℚ) < 1/5 ∧
    ((∀ a : ℚ, ppoClipped (1/5) (1 + 2 * (1/5)) a = (1 + 1/5) * a) ∧
      (∀ r a : ℚ, 0 ≤ a →
        min (ppoUnclipped r a) (ppoClipped (1/5) r a) =
          min r (clampQ r (1 - 1/5) (1 + 1/5)) * a) ∧
      (∀ r a : ℚ, a ≤ 0 →
        min (ppoUnclipped r a) (ppoClipped (1/5) r a) =
          max r (clampQ r (1 - 1/5) (1 + 1/5)) * a) ∧
      ppoPolicyLoss (1/5) [7/5, 1] [2, -3] =
        -listMean (List.zipWith
          (fun r a => min (ppoUnclipped r a) (ppoClipped (1/5) r a)) [7/5, 1] [2, -3])) :=
  ⟨by norm_num, ppo_clip_objective (1/5) [7/5, 1] [2, -3] (by norm_num)⟩

/-- C3 counterexample: two `_anneal_entropy` calls (anneal window 4, cumulative
steps 1 then 2, initial coefficient 1, floor 0) leave the coefficient at
`3/8`, not at the claimed `initial * (1 - p) + floor * p = 1/2` for
`p = min(1, 2/4)`: the result depends on how many times annealing was
already applied, because each call restarts from the current, already
annealed, coefficient. -/
theorem anneal_entropy_counterexample :
    annealSequence 1 0 4 [1, 2] ≠
      1 * (1 - min 1 ((2 : ℚ) / 4)) + 0 * min 1 ((2 : ℚ) / 4) := by
  have h4 : (max 1 4 : ℕ) = 4 := by omega
  norm_num [annealSequence, annealEntropy, h4]

/-- C3 amended: each `_anneal_entropy` call interpolates the current
coefficient toward the floor with weight
`p = min(1, global_step / max(1, entropy_anneal_steps))` (so repeated calls
compound rather than depending on the cumulative step count alone); each
call keeps the coefficient between the floor and its current value, and
once `global_step ≥ entropy_anneal_steps` the coefficient lands exactly on
the floor. -/
theorem anneal_entropy_amended (c cmin : ℚ) (n g : ℕ) (hfloor : cmin ≤ c) :
    (cmin ≤ annealEntropy c cmin n g ∧ annealEntropy c cmin n g ≤ c) ∧
    (0 < n → n ≤ g → annealEntropy c cmin n g = cmin) := by
  constructor
  · simp only [annealEntropy]
    set p := min 1 ((g : ℚ) / ((max 1 n : ℕ) : ℚ)) with hp
    have hp1 : p ≤ 1 := min_le_left _ _
    have hp0 : 0 ≤ p := by
      apply le_min (by norm_num)
      apply div_nonneg (Nat.cast_nonneg g) (Nat.cast_nonneg _)
    constructor <;> nlinarith
  · intro hn hg
    simp only [annealEntropy]
    have hmax : max 1 n = n := by omega
    rw [hmax]
    have hone : (1 : ℚ) ≤ (g : ℚ) / (n : ℚ) := by
      rw [le_div_iff₀ (by exact_mod_cast hn)]
      simpa using (Nat.cast_le.mpr hg : (n : ℚ) ≤ (g : ℚ))
    rw [min_eq_left hone]
    ring

/-- C3 amended witness: the theorem instantiated at concrete values. -/
theorem anneal_entropy_amended_witness :
    (0 : ℚ) ≤ 1 ∧
    (((0 : ℚ) ≤ annealEntropy 1 0 3 5 ∧ annealEntropy 1 0 3 5 ≤ 1) ∧
      (0 < 3 → 3 ≤ 5 → annealEntropy 1 0 3 5 = 0)) :=
  ⟨by norm_num, anneal_entropy_amended 1 0 3 5 (by norm_num)⟩

/-- C8: `promote_if_qualified` with a supplied top-three baseline rejects
exactly the candidates whose win-rate is below `0.55` or strictly below
every one of the three baseline win-rates; a rejection leaves the pool
untouched; a candidate with win-rate `0.50` is never promoted for any
baseline; a candidate with win-rate `0.70` against baselines
`{0.60, 0.62, 0.65}` is promoted. -/
theorem league_promotion_rule (keepTopN : ℕ) (entries : List LeagueEntry)
    (cand : LeagueEntry) (top3 : List ℚ) (hlen : top3.length = 3) :
    ((promoteIfQualified keepTopN entries cand top3).1 = false ↔
      cand.winrate < 11/20 ∨ ∀ x ∈ top3, cand.winrate < x) ∧
    ((promoteIfQualified keepTopN entries cand top3).1 = false →
      (promoteIfQualified keepTopN entries cand top3).2 = entries) ∧
    (∀ t3 : List ℚ, cand.winrate = 1/2 →
      (promoteIfQualified keepTopN entries cand t3).1 = false) ∧
    (cand.winrate = 7/10 →
      (promoteIfQualified keepTopN entries cand [3/5, 31/50, 13/20]).1 = true) := by
  have hne : top3 ≠ [] := by
    intro h
    rw [h] at hlen
    simp at hlen
  refine ⟨?_, ?_, ?_, ?_⟩
  · by_cases h1 : cand.winrate < 11/20
    · simp only [promoteIfQualified, if_pos h1]
      tauto
    · by_cases h2 : cand.winrate < listMin top3
      · simp only [promoteIfQualified, if_neg h1, if_pos (And.intro hne h2)]
        simp only [true_iff]
        exact Or.inr ((lt_listMin_iff hne).mp h2)
      · have hcond : ¬(top3 ≠ [] ∧ cand.winrate < listMin top3) := by tauto
        simp only [promoteIfQualified, if_neg h1, if_neg hcond]
        constructor
        · intro h
          simp at h
        · intro h
          rcases h with h | h
          · exact absurd h h1
          · exact absurd ((lt_listMin_iff hne).mpr h) h2
  · intro hfalse
    by_cases h1 : cand.winrate < 11/20
    · simp only [promoteIfQualified, if_pos h1]
    · by_cases h2 : cand.winrate < listMin top3
      · simp only [promoteIfQualified, if_neg h1, if_pos (And.intro hne h2)]
      · have hcond : ¬(top3 ≠ [] ∧ cand.winrate < listMin top3) := by tauto
        simp [promoteIfQualified, if_neg h1, if_neg hcond] at hfalse
  · intro t3 hwr
    have h1 : cand.winrate < 11/20 := by rw [hwr]; norm_num
    simp only [promoteIfQualified, if_pos h1]
  · intro hwr
    have h1 : ¬(cand.winrate < 11/20) := by rw [hwr]; norm_num
    have h2 : ¬(([3/5, 31/50, 13/20] : List ℚ) ≠ [] ∧
        cand.winrate < listMin [3/5, 31/50, 13/20]) := by
      rw [hwr]
      norm_num [listMin]
    simp only [promoteIfQualified, if_neg h1, if_neg h2]

/-- C8 witness: the theorem instantiated at a concrete pool and candidate. -/
theorem league_promotion_rule_witness :
    ([(3 : ℚ)/5, 31/50, 13/20] : List ℚ).length = 3 ∧
    (((promoteIfQualified 8 [] ⟨"cand", 1000, 1080, 7/10⟩ [3/5, 31/50, 13/20]).1 = false ↔
        (7 : ℚ)/10 < 11/20 ∨ ∀ x ∈ ([3/5, 31/50, 13/20] : List ℚ), (7 : ℚ)/10 < x) ∧
      ((promoteIfQualified 8 [] ⟨"cand", 1000, 1080, 7/10⟩ [3/5, 31/50, 13/20]).1 = false →
        (promoteIfQualified 8 [] ⟨"cand", 1000, 1080, 7/10⟩ [3/5, 31/50, 13/20]).2 = []) ∧
      (∀ t3 : List ℚ, (7 : ℚ)/10 = 1/2 →
        (promoteIfQualified 8 [] ⟨"cand", 1000, 1080, 7/10⟩ t3).1 = false) ∧
      ((7 : ℚ)/10 = 7/10 →
        (promoteIfQualified 8 [] ⟨"cand", 1000, 1080, 7/10⟩ [3/5, 31/50, 13/20]).1 = true)) :=
  ⟨rfl, league_promotion_rule 8 [] ⟨"cand", 1000, 1080, 7/10⟩ [3/5, 31/50, 13/20] rfl⟩

/-- C4: evaluation of the admission path at a concrete input.  With pool
capacity `keep_top_n = 1` and two entries already present, admitting a
qualified candidate leaves three entries in the pool: the slice bound
`max(self.keep_top_n, len(self.entries))` on line 44 never truncates, so
the pool exceeds the configured capacity, contrary to the documented
truncation. -/
theorem league_truncation_bug :
    (promoteIfQualified 1
        [⟨"cp1", 100, 1040, 3/5⟩, ⟨"cp2", 200, 1030, 29/50⟩]
        ⟨"cp3", 300, 1080, 7/10⟩ [3/5]).1 = true ∧
    ¬((promoteIfQualified 1
        [⟨"cp1", 100, 1040, 3/5⟩, ⟨"cp2", 200, 1030, 29/50⟩]
        ⟨"cp3", 300, 1080, 7/10⟩ [3/5]).2.length ≤ 1) := by
  have hmem : (⟨"cp3", 300, 1080, 7/10⟩ : LeagueEntry) ∉
      [(⟨"cp1", 100, 1040, 3/5⟩ : LeagueEntry), ⟨"cp2", 200, 1030, 29/50⟩] := by
    simp [LeagueEntry.mk.injEq]
  have h1 : ¬((⟨"cp3", 300, 1080, (7 : ℚ)/10⟩ : LeagueEntry).winrate < 11/20) := by
    norm_num
  have h2 : ¬(([3/5] : List ℚ) ≠ [] ∧
      (⟨"cp3", 300, 1080, (7 : ℚ)/10⟩ : LeagueEntry).winrate < listMin [3/5]) := by
    norm_num [listMin]
  simp only [promoteIfQualified, if_neg h1, if_neg h2, if_neg hmem]
  refine ⟨by trivial, ?_⟩
  rw [List.length_take, leagueSortDesc_length]
  simp

/-- C7: when any metric of an iteration is NaN or infinite, the trainer
restores the model parameters and optimizer state saved in the last good
checkpoint and emits only the rollback notice — no metrics logging, no
checkpoint save, no evaluation — and when no checkpoint exists yet it emits
only the missing-checkpoint warning and continues with the updated
parameters instead of rolling back or failing. -/
theorem trainer_nan_guard {Θ Ω : Type} (rt : RuntimeCfgLoop) (s : TrainerState Θ Ω)
    (updParams : Θ) (updOpt : Ω) (metrics : Metrics)
    (hnan : (Metrics.valueList metrics).any isNanOrInf = true) :
    (∀ p o, s.lastGoodCheckpoint = some (p, o) →
      (trainIterationTail rt s updParams updOpt metrics).1.modelParams = p ∧
      (trainIterationTail rt s updParams updOpt metrics).1.optState = o ∧
      (trainIterationTail rt s updParams updOpt metrics).2 =
        [TrainerEvent.rollbackNotice]) ∧
    (s.lastGoodCheckpoint = none →
      (trainIterationTail rt s updParams updOpt metrics).1.modelParams = updParams ∧
      (trainIterationTail rt s updParams updOpt metrics).1.optState = updOpt ∧
      (trainIterationTail rt s updParams updOpt metrics).2 =
        [TrainerEvent.noCheckpointWarning]) ∧
    TrainerEvent.metricsLogged ∉ (trainIterationTail rt s updParams updOpt metrics).2 ∧
    TrainerEvent.checkpointSaved ∉ (trainIterationTail rt s updParams updOpt metrics).2 ∧
    TrainerEvent.evaluated ∉ (trainIterationTail rt s updParams updOpt metrics).2 := by
  refine ⟨?_, ?_, ?_, ?_, ?_⟩
  · intro p o hcp
    simp [trainIterationTail, hnan, hcp]
  · intro hcp
    simp [trainIterationTail, hnan, hcp]
  all_goals
    cases hcp : s.lastGoodCheckpoint with
    | none => simp [trainIterationTail, hnan, hcp]
    | some cp => simp [trainIterationTail, hnan, hcp]

/-- C7 witness: the theorem instantiated with rational-valued parameter and
optimizer state, a NaN `value_loss` metric and a stored checkpoint. -/
theorem trainer_nan_guard_witness :
    (Metrics.valueList ⟨.fin 0, .nan, .fin 1, .fin 0, .fin 0, .fin 6⟩).any isNanOrInf = true ∧
    ((∀ p o, (⟨5, 7, 0, some ((1 : ℚ), (2 : ℚ))⟩ : TrainerState ℚ ℚ).lastGoodCheckpoint =
          some (p, o) →
        (trainIterationTail ⟨256, 8, 2048, 100000, 200000, 3/1000⟩
          ⟨5, 7, 0, some ((1 : ℚ), (2 : ℚ))⟩ 11 13
          ⟨.fin 0, .nan, .fin 1, .fin 0, .fin 0, .fin 6⟩).1.modelParams = p ∧
        (trainIterationTail ⟨256, 8, 2048, 100000, 200000, 3/1000⟩
          ⟨5, 7, 0, some ((1 : ℚ), (2 : ℚ))⟩ 11 13
          ⟨.fin 0, .nan, .fin 1, .fin 0, .fin 0, .fin 6⟩).1.optState = o ∧
        (trainIterationTail ⟨256, 8, 2048, 100000, 200000, 3/1000⟩
          ⟨5, 7, 0, some ((1 : ℚ), (2 : ℚ))⟩ 11 13
          ⟨.fin 0, .nan, .fin 1, .fin 0, .fin 0, .fin 6⟩).2 =
          [TrainerEvent.rollbackNotice]) ∧
      ((⟨5, 7, 0, some ((1 : ℚ), (2 : ℚ))⟩ : TrainerState ℚ ℚ).lastGoodCheckpoint = none →
        (trainIterationTail ⟨256, 8, 2048, 100000, 200000, 3/1000⟩
          ⟨5, 7, 0, some ((1 : ℚ), (2 : ℚ))⟩ 11 13
          ⟨.fin 0, .nan, .fin 1, .fin 0, .fin 0, .fin 6⟩).1.modelParams = 11 ∧
        (trainIterationTail ⟨256, 8, 2048, 100000, 200000, 3/1000⟩
          ⟨5, 7, 0, some ((1 : ℚ), (2 : ℚ))⟩ 11 13
          ⟨.fin 0, .nan, .fin 1, .fin 0, .fin 0, .fin 6⟩).1.optState = 13 ∧
        (trainIterationTail ⟨256, 8, 2048, 100000, 200000, 3/1000⟩
          ⟨5, 7, 0, some ((1 : ℚ), (2 : ℚ))⟩ 11 13
          ⟨.fin 0, .nan, .fin 1, .fin 0, .fin 0, .fin 6⟩).2 =
          [TrainerEvent.noCheckpointWarning]) ∧
      TrainerEvent.metricsLogged ∉
        (trainIterationTail ⟨256, 8, 2048, 100000, 200000, 3/1000⟩
          ⟨5, 7, 0, some ((1 : ℚ), (2 : ℚ))⟩ 11 13
          ⟨.fin 0, .nan, .fin 1, .fin 0, .fin 0, .fin 6⟩).2 ∧
      TrainerEvent.checkpointSaved ∉
        (trainIterationTail ⟨256, 8, 2048, 100000, 200000, 3/1000⟩
          ⟨5, 7, 0, some ((1 : ℚ), (2 : ℚ))⟩ 11 13
          ⟨.fin 0, .nan, .fin 1, .fin 0, .fin 0, .fin 6⟩).2 ∧
      TrainerEvent.evaluated ∉
        (trainIterationTail ⟨256, 8, 2048, 100000, 200000, 3/1000⟩
          ⟨5, 7, 0, some ((1 : ℚ), (2 : ℚ))⟩ 11 13
          ⟨.fin 0, .nan, .fin 1, .fin 0, .fin 0, .fin 6⟩).2) :=
  ⟨rfl, trainer_nan_guard ⟨256, 8, 2048, 100000, 200000, 3/1000⟩
    ⟨5, 7, 0, some ((1 : ℚ), (2 : ℚ))⟩ 11 13
    ⟨.fin 0, .nan, .fin 1, .fin 0, .fin 0, .fin 6⟩ rfl⟩

/-- C1 amended: for every head and both sampling modes, whenever the mask is
0/1-valued with at least one legal index and the legal logits are ordinary
float magnitudes (far above `finfo.min`), the chosen index — the arg-max in
deterministic mode, any index of positive sampling probability in
stochastic mode — has mask value 1. -/
theorem masked_sampling_legal (logits mask : List ℚ)
    (hlen : mask.length = logits.length)
    (hbin : ∀ m ∈ mask, m = 0 ∨ m = 1)
    (hsome : (1 : ℚ) ∈ mask)
    (hrange : ∀ x ∈ logits, fmin32 + 104 < x) :
    mask.getD (argmaxIdx (maskedLogits logits mask)) 0 = 1 ∧
    ∀ i ∈ sampleSupport (maskedLogits logits mask), mask.getD i 0 = 1 := by
  have hml_len : (maskedLogits logits mask).length = mask.length := by
    simp only [maskedLogits, List.length_zipWith]
    omega
  have hgetD : ∀ i, i < mask.length →
      (maskedLogits logits mask).getD i 0 =
        if 0 < mask.getD i 0 then logits.getD i 0 else fmin32 :=
    fun i hi =>
      getD_zipWith (fun m l => if 0 < m then l else fmin32) mask logits i hi (by omega)
  obtain ⟨j, hj, hjval⟩ := List.mem_iff_getElem.mp hsome
  have hjD : mask.getD j 0 = 1 := by
    rw [List.getD_eq_getElem _ _ hj]
    exact hjval
  have hjlog : j < logits.length := by omega
  have hmlj : (maskedLogits logits mask).getD j 0 = logits.getD j 0 := by
    rw [hgetD j hj, hjD]
    norm_num
  have hlogj : fmin32 + 104 < logits.getD j 0 := by
    apply hrange
    rw [List.getD_eq_getElem _ _ hjlog]
    exact List.getElem_mem hjlog
  have hml_ne : maskedLogits logits mask ≠ [] := by
    apply List.ne_nil_of_length_pos
    omega
  have hmax_big : fmin32 + 104 < listMax (maskedLogits logits mask) := by
    apply lt_of_lt_of_le hlogj
    rw [← hmlj]
    apply le_listMax
    rw [List.getD_eq_getElem _ _ (show j < (maskedLogits logits mask).length by omega)]
    exact List.getElem_mem (by omega)
  have hbinD : ∀ i, i < mask.length → mask.getD i 0 = 0 ∨ mask.getD i 0 = 1 := by
    intro i hi
    apply hbin
    rw [List.getD_eq_getElem _ _ hi]
    exact List.getElem_mem hi
  constructor
  · have hk := argmaxIdx_lt hml_ne
    have hkm : argmaxIdx (maskedLogits logits mask) < mask.length := by omega
    rcases hbinD _ hkm with h0 | h1
    · exfalso
      have hzero : (maskedLogits logits mask).getD
          (argmaxIdx (maskedLogits logits mask)) 0 = fmin32 := by
        rw [hgetD _ hkm, h0]
        norm_num
      rw [getD_argmaxIdx hml_ne] at hzero
      rw [hzero] at hmax_big
      linarith
    · exact h1
  · intro i hi
    have hi2 : i < (maskedLogits logits mask).length ∧
        expUnderflows ((maskedLogits logits mask).getD i 0 -
          listMax (maskedLogits logits mask)) = false := by
      simpa [sampleSupport, List.mem_filter, List.mem_range] using hi
    have him : i < mask.length := by omega
    rcases hbinD i him with h0 | h1
    · exfalso
      have hzero : (maskedLogits logits mask).getD i 0 = fmin32 := by
        rw [hgetD i him, h0]
        norm_num
      have hund : (maskedLogits logits mask).getD i 0 -
          listMax (maskedLogits logits mask) < -104 := by
        rw [hzero]
        linarith
      exact (of_decide_eq_false hi2.2) hund
    · exact h1

/-- C1 amended witness: the theorem instantiated with logits `[1, 2]` and
mask `[0, 1]`. -/
theorem masked_sampling_legal_witness :
    (([0, 1] : List ℚ).length = ([1, 2] : List ℚ).length ∧
      (∀ m ∈ ([0, 1] : List ℚ), m = 0 ∨ m = 1) ∧
      (1 : ℚ) ∈ ([0, 1] : List ℚ) ∧
      ∀ x ∈ ([1, 2] : List ℚ), fmin32 + 104 < x) ∧
    (([0, 1] : List ℚ).getD (argmaxIdx (maskedLogits [1, 2] [0, 1])) 0 = 1 ∧
      ∀ i ∈ sampleSupport (maskedLogits [1, 2] [0, 1]),
        ([0, 1] : List ℚ).getD i 0 = 1) :=
  ⟨⟨rfl, by norm_num, by norm_num, by norm_num [fmin32]⟩,
    masked_sampling_legal [1, 2] [0, 1] rfl (by norm_num) (by norm_num)
      (by norm_num [fmin32])⟩

/-- C1 counterexample: on an all-zero mask (the mock environment's sell-slot
mask, `slot_dim = 4`) every logit becomes `finfo.min`, the float32 softmax
is uniform over the masked-out indices, and both modes return index 0,
whose mask value is 0, not 1 — the claim fails as stated for fully
masked-out heads. -/
theorem masked_sampling_counterexample :
    argmaxIdx (maskedLogits [0, 0, 0, 0] [0, 0, 0, 0]) = 0 ∧
    0 ∈ sampleSupport (maskedLogits [0, 0, 0, 0] [0, 0, 0, 0]) ∧
    ([0, 0, 0, 0] : List ℚ).getD 0 0 ≠ 1 := by
  have hml : maskedLogits [0, 0, 0, 0] [0, 0, 0, 0] =
      [fmin32, fmin32, fmin32, fmin32] := by
    norm_num [maskedLogits]
  refine ⟨?_, ?_, ?_⟩
  · rw [hml]
    simp [argmaxIdx, listMax]
  · rw [hml]
    simp only [sampleSupport, List.mem_filter, List.mem_range]
    constructor
    · norm_num
    · simp [listMax, expUnderflows]
  · norm_num

/-- C9: the mock environment is deterministic given its inputs — whatever the
prior internal state of two environment instances with the same
configuration, resetting both with the same seed and stepping them through
the same action sequence produces the same initial observation and
identical sequences of observations, rewards, done flags, info maps and
reward components (the abstract rng stream is a function of the seed
alone). -/
theorem mock_env_deterministic (rngStream : ℤ → ℕ → ℚ) (cfg : ModelCfg)
    (maxTicks : ℕ) (s1 s2 : MockEnvState) (seed1 seed2 : ℤ) (c1 c2 : ℕ)
    (d1 d2 d3 d4 : ℚ) (seed : ℤ) (actions : List Action) :
    (resetEnv ⟨cfg, maxTicks, seed1, c1, s1, d1, d2⟩ seed).2 =
      (resetEnv ⟨cfg, maxTicks, seed2, c2, s2, d3, d4⟩ seed).2 ∧
    runEpisode rngStream (resetEnv ⟨cfg, maxTicks, seed1, c1, s1, d1, d2⟩ seed).1 actions =
      runEpisode rngStream (resetEnv ⟨cfg, maxTicks, seed2, c2, s2, d3, d4⟩ seed).1 actions :=
  ⟨rfl, rfl⟩

/-- Mask shape facts of every observation `_build_observation` produces. -/
theorem buildObservation_masks (cfg : ModelCfg) (st : MockEnvState) (a b : ℚ) :
    (buildObservation cfg st a b).actionTypeMask.getD 0 0 = 1 ∧
    (buildObservation cfg st a b).actionTypeMask.getD 6 0 = 0 ∧
    (buildObservation cfg st a b).sellSlotMask = List.replicate cfg.slotDim 0 :=
  ⟨rfl, rfl, rfl⟩

/-- C10: every observation the mock environment returns — from `reset` or
from `step` — has action-type mask value 1 at index 0 (`WAIT` always legal)
and 0 at index 6 (`SELL_TURRET_ENGINE` never legal), and an all-zero
sell-slot mask of length `slot_dim`, so the sell-slot head always samples
from a fully masked-out distribution. -/
theorem mock_observation_masks (rngStream : ℤ → ℕ → ℚ) (e : MockEnv) (seed : ℤ)
    (a : Action) :
    ((resetEnv e seed).2.actionTypeMask.getD 0 0 = 1 ∧
      (resetEnv e seed).2.actionTypeMask.getD 6 0 = 0 ∧
      (resetEnv e seed).2.sellSlotMask = List.replicate e.cfg.slotDim 0) ∧
    ((stepEnv rngStream e a).2.1.actionTypeMask.getD 0 0 = 1 ∧
      (stepEnv rngStream e a).2.1.actionTypeMask.getD 6 0 = 0 ∧
      (stepEnv rngStream e a).2.1.sellSlotMask = List.replicate e.cfg.slotDim 0) :=
  ⟨buildObservation_masks e.cfg {} 0 0, buildObservation_masks e.cfg _ _ _⟩

end SelfPlay
